import Mathlib

/-!
Shallow embedding of `ctaocrypt/src/ecc25519.c` (CyaSSL curve25519 key
exchange) together with its header `cyassl/ctaocrypt/ecc25519.h`.

Modelling conventions:
* byte buffers are `List Nat`; a C `byte` is a `Nat` that callers keep below
  256 (carried as hypotheses where it matters);
* the fixed 32-byte arrays inside `ecc25519_key` are `List Nat` whose length
  is 32 by invariant (hypotheses in the theorems);
* pointers that the C code checks against `NULL` are `Option`s;
* a memory access the C code performs outside the modelled extent of a buffer
  is made explicit: such an execution returns `Except.error CErr.oob`, and a
  dereference of a `NULL` pointer returns `Except.error CErr.nullDeref`;
* the field arithmetic engine (`ecc25519_fe.h`) and the straight-line
  Montgomery differential-addition/doubling step
  (`ecc25519_montgomery.h`) are not among the sources; they are modelled
  from the spec, over integers mod 2^255 - 19, and each such definition is
  marked `Modelled from the spec`.
-/

/-- Abnormal memory events of the C code, made explicit in the total model. -/
inductive CErr where
  | nullDeref
  | oob
deriving DecidableEq

/-- Modelled from the spec: the outer library error-code namespace
(`error-crypt.h` is not among the sources); distinct negative codes. -/
def ECC_BAD_ARG_E : Int := -170

/-- Modelled from the spec: see `ECC_BAD_ARG_E`. -/
def BAD_FUNC_ARG : Int := -173

/-- Modelled from the spec: see `ECC_BAD_ARG_E`. -/
def BUFFER_E : Int := -132

/-- The prime 2^255 - 19, the field modulus of curve25519. -/
def p25519 : Nat := 2 ^ 255 - 19

/-- Modelled from the spec: field addition mod 2^255 - 19 (`fe_add` of the
missing `ecc25519_fe.h`). -/
def fe_add (a b : Nat) : Nat := (a + b) % p25519

/-- Modelled from the spec: field subtraction mod 2^255 - 19 (`fe_sub`). -/
def fe_sub (a b : Nat) : Nat := (a % p25519 + (p25519 - b % p25519)) % p25519

/-- Modelled from the spec: field multiplication mod 2^255 - 19 (`fe_mul`). -/
def fe_mul (a b : Nat) : Nat := a * b % p25519

/-- Modelled from the spec: field squaring mod 2^255 - 19 (`fe_sq`). -/
def fe_sq (a : Nat) : Nat := a * a % p25519

/-- Modelled from the spec: multiplication by the curve constant 121666
(`fe_mul121666`). -/
def fe_mul121666 (a : Nat) : Nat := a * 121666 % p25519

/-- Binary modular exponentiation, structurally recursive on a fuel bound on
the bit length of the exponent. -/
def powModAux : Nat → Nat → Nat → Nat → Nat
  | 0, _, _, m => 1 % m
  | fuel + 1, b, e, m =>
    if e = 0 then 1 % m
    else
      let h := powModAux fuel (b * b % m) (e / 2) m
      if e % 2 = 1 then b * h % m else h

/-- Modelled from the spec: modular inverse by exponentiation to p - 2
(`fe_invert`); `fe_invert 0 = 0`. -/
def fe_invert (a : Nat) : Nat := powModAux 256 (a % p25519) (p25519 - 2) p25519

/-- Little-endian value of the first 32 entries of a byte list. -/
def leVal32 (l : List Nat) : Nat :=
  (List.range 32).foldr (fun i acc => l.getD i 0 + 256 * acc) 0

/-- Modelled from the spec: `fe_frombytes` — little-endian decode of 32 bytes
with the top bit (bit 255) masked before interpretation mod p. -/
def fe_frombytes (l : List Nat) : Nat := leVal32 l % 2 ^ 255 % p25519

/-- Modelled from the spec: `fe_tobytes` — full reduction to the unique
representative in `[0, p)` followed by little-endian encoding. -/
def fe_tobytes (a : Nat) : List Nat :=
  (List.range 32).map (fun i => a % p25519 / 2 ^ (8 * i) % 256)

/-- Modelled from the spec: `fe_cswap` — functional behavior of the
constant-time conditional swap (bit 1 exchanges, bit 0 leaves unchanged). -/
def fe_cswap (b : Nat) (x y : Nat) : Nat × Nat := if b = 0 then (x, y) else (y, x)

/-- State carried through the Montgomery ladder loop of `curve25519`
(ecc25519.c lines 71-80): the pending-swap flag and the two projective
points. -/
structure LadderState where
  swap : Nat
  x2 : Nat
  z2 : Nat
  x3 : Nat
  z3 : Nat

/-- Modelled from the spec: the standard differential addition-and-doubling
straight-line step (`ecc25519_montgomery.h`, not among the sources) — a fixed
sequence of field add/sub/mul/square updating `(x2, z2, x3, z3)`. -/
def montgomeryStep (x1 x2 z2 x3 z3 : Nat) : Nat × Nat × Nat × Nat :=
  let tmp0 := fe_sub x3 z3
  let tmp1 := fe_sub x2 z2
  let x2 := fe_add x2 z2
  let z2 := fe_add x3 z3
  let z3 := fe_mul tmp0 x2
  let z2 := fe_mul z2 tmp1
  let tmp0 := fe_sq tmp1
  let tmp1 := fe_sq x2
  let x3 := fe_add z3 z2
  let z2 := fe_sub z3 z2
  let x2 := fe_mul tmp1 tmp0
  let tmp1 := fe_sub tmp1 tmp0
  let z2 := fe_sq z2
  let z3 := fe_mul121666 tmp1
  let x3 := fe_sq x3
  let tmp0 := fe_add tmp0 z3
  let z3 := fe_mul x1 z2
  let z2 := fe_mul tmp1 tmp0
  (x2, z2, x3, z3)

/-- One iteration of the ladder loop of `curve25519` (ecc25519.c lines
72-80) at bit position `pos`: extract the scalar bit, conditionally swap by
the running flag XOR the bit, perform the straight-line step, and record the
bit as the pending swap. -/
def ladderIter (e : List Nat) (x1 : Nat) (st : LadderState) (pos : Nat) : LadderState :=
  let b := e.getD (pos / 8) 0 >>> (pos % 8) &&& 1
  let swap := st.swap ^^^ b
  let (x2, x3) := fe_cswap swap st.x2 st.x3
  let (z2, z3) := fe_cswap swap st.z2 st.z3
  let (x2, z2, x3, z3) := montgomeryStep x1 x2 z2 x3 z3
  { swap := b, x2 := x2, z2 := z2, x3 := x3, z3 := z3 }

/-- The scalar clamp of ecc25519.c lines 61-63 (and, identically, lines
113-115 of `ecc25519_make_key`): `e[0] &= 248; e[31] &= 127; e[31] |= 64`. -/
def clamp (n : List Nat) : List Nat :=
  (n.set 0 (n.getD 0 0 &&& 248)).set 31 ((n.getD 31 0 &&& 127) ||| 64)

/-- The Montgomery-ladder scalar multiplication `curve25519` of ecc25519.c
lines 45-89: copy and clamp the scalar, decode the point, run 255 ladder
iterations from bit 254 down to 0, apply the final conditional swap, invert
`z2`, multiply, and encode.  The C function also returns the constant 0. -/
def curve25519 (n p : List Nat) : List Nat :=
  let e := clamp n
  let x1 := fe_frombytes p
  let st0 : LadderState := { swap := 0, x2 := 1, z2 := 0, x3 := x1, z3 := 1 }
  let st := ((List.range 255).reverse).foldl (ladderIter e x1) st0
  let x2 := (fe_cswap st.swap st.x2 st.x3).1
  let z2 := (fe_cswap st.swap st.z2 st.z3).1
  fe_tobytes (fe_mul x2 (fe_invert z2))

/-- The `basepoint` local of `ecc25519_make_key` (line 94): the little-endian
encoding of the integer 9, `{9, 0, ..., 0}`. -/
def basepoint : List Nat := 9 :: List.replicate 31 0

/-- `ecc25519_set_type` of ecc25519.h lines 39-42. -/
structure ecc25519_set_type where
  size : Int
  name : String
deriving DecidableEq

/-- The single entry of the `ecc25519_sets[]` table (ecc25519.c lines
36-41). -/
def ecc25519_sets0 : ecc25519_set_type := { size := 32, name := "CURVE25519" }

/-- `ECPoint` of ecc25519.h lines 46-48: a 32-byte buffer (the length-32
invariant is carried by hypotheses). -/
structure ECPoint where
  point : List Nat
deriving DecidableEq

/-- The `montgomery_x_le` format tag (ecc25519.h line 52). -/
def montgomery_x_le : Nat := 0x41

/-- `ecc25519_key` of ecc25519.h lines 56-66.  `dp` is a nullable pointer to
the domain-parameter entry. -/
structure ecc25519_key where
  type : Int
  idx : Int
  dp : Option ecc25519_set_type
  f : Nat
  p : ECPoint
  k : ECPoint
deriving DecidableEq

/-- `ecc25519_size` (ecc25519.c lines 298-303): 0 for a NULL key, otherwise
`key->dp->size` — a dereference of `dp`, which is a NULL dereference when the
domain-parameter reference has been cleared. -/
def ecc25519_size : Option ecc25519_key → Except CErr Int
  | none => .ok 0
  | some key =>
    match key.dp with
    | none => .error .nullDeref
    | some dp => .ok dp.size

/-- `ecc25519_free` (ecc25519.c lines 286-294): on a non-NULL key, clear the
domain-parameter reference and zero both 32-byte buffers; a NULL key is left
alone. -/
def ecc25519_free : Option ecc25519_key → Option ecc25519_key
  | none => none
  | some key =>
    some { key with dp := none, p := ⟨List.replicate 32 0⟩, k := ⟨List.replicate 32 0⟩ }

/-- `ecc25519_init` (ecc25519.c lines 264-280): set the format tag and the
domain-parameter reference, then zero both buffers (`keySz = dp->size = 32`). -/
def ecc25519_init : Option ecc25519_key → Int × Option ecc25519_key
  | none => (ECC_BAD_ARG_E, none)
  | some key =>
    (0, some { key with f := montgomery_x_le, dp := some ecc25519_sets0,
                        p := ⟨List.replicate 32 0⟩, k := ⟨List.replicate 32 0⟩ })

/-- The byte-reversal loops of `ecc25519_make_key` (lines 122-125) and
`ecc25519_shared_secret` (lines 159-162): `dst[i] = src[KEYSIZE - i - 1]`
over a 32-byte extent. -/
def rev32 (l : List Nat) : List Nat := (List.range 32).map (fun j => l.getD (31 - j) 0)

/-- Reading the first 32 bytes of a buffer, as the copy loops at lines 60 and
112 do. -/
def read32 (l : List Nat) : List Nat := (List.range 32).map (fun i => l.getD i 0)

/-- `ecc25519_make_key` (ecc25519.c lines 92-130).  The external random
source `RNG_GenerateBlock` is modelled from the spec as its outcome: either a
nonzero error code or the 32 drawn bytes.  On success the clamped scalar and
the computed public point are stored byte-reversed; the local scalar buffer
wipe (line 127) has no observable effect in the value model. -/
def ecc25519_make_key (rng : Option (Except Int (List Nat))) (keysize : Int)
    (key : Option ecc25519_key) : Int × Option ecc25519_key :=
  match key, rng with
  | none, _ => (ECC_BAD_ARG_E, key)
  | some _, none => (ECC_BAD_ARG_E, key)
  | some key0, some rngOut =>
    if keysize ≠ 32 then (ECC_BAD_ARG_E, some key0)
    else
      match rngOut with
      | .error err => (err, some key0)
      | .ok n =>
        let kpt := clamp (read32 n)
        let ppt := curve25519 kpt basepoint
        (0, some { key0 with p := ⟨rev32 ppt⟩, k := ⟨rev32 kpt⟩ })

/-- `ecc25519_shared_secret` (ecc25519.c lines 133-171).  The NULL checks on
the embedded `point` arrays (lines 145-146) are vacuously passed in the value
model.  Order of the remaining checks follows the source: high-bit policy on
the stored peer point (line 149), then the output-length check (line 152) —
which returns `BUFFER_E` without touching `out` or `*outlen` — then
`XMEMSET(out, 0, 32)` (guarded against the buffer extent), the two
byte-reversals, the ladder, and `*outlen = 32`. -/
def ecc25519_shared_secret (private_key public_key : Option ecc25519_key)
    (out : Option (List Nat)) (outlen : Option Nat) :
    Except CErr (Int × Option (List Nat) × Option Nat) :=
  match private_key, public_key, out, outlen with
  | some prv, some pub, some o, some ol =>
    if pub.p.point.getD 0 0 > 0x7F then .ok (ECC_BAD_ARG_E, some o, some ol)
    else if ol < 32 then .ok (BUFFER_E, some o, some ol)
    else if o.length < 32 then .error .oob
    else
      let q := curve25519 (rev32 prv.k.point) (rev32 pub.p.point)
      .ok (0, some (q ++ o.drop 32), some 32)
  | _, _, _, _ => .ok (BAD_FUNC_ARG, out, outlen)

/-- `ecc25519_export_public` (ecc25519.c lines 176-197): after the NULL
checks, `keySz = ecc25519_size(key)`, copy the stored public point to
`out + 2`, report `*outLen = keySz + 2`, and write the length byte and the
format tag at `out[0]`, `out[1]`. -/
def ecc25519_export_public (key : Option ecc25519_key) (out : Option (List Nat))
    (outLen : Nat) : Except CErr (Int × Option (List Nat) × Nat) :=
  match key, out with
  | some key, some o =>
    match ecc25519_size (some key) with
    | .error e => .error e
    | .ok keySz =>
      let kz := keySz.toNat
      if 2 + kz ≤ o.length then
        let o := o.take 2 ++ read32 key.p.point ++ o.drop (2 + kz)
        let written := kz + 2
        .ok (0, some ((o.set 0 (written % 256)).set 1 key.f), written)
      else .error .oob
  | _, _ => .ok (BAD_FUNC_ARG, out, outLen)

/-- `ecc25519_import_public` (ecc25519.c lines 201-219): no NULL checks;
`keySz = ecc25519_size(key)`; reject when `inLen != keySz + 2` or the format
tag at `in[1]` is wrong; otherwise `XMEMCPY(key->p.point, in + 2, inLen)` —
a copy of `inLen` bytes, guarded here against both the source extent
(`inp.length`) and the 32-byte destination — and set the domain-parameter
reference. -/
def ecc25519_import_public (inp : List Nat) (inLen : Nat) (key : Option ecc25519_key) :
    Except CErr (Int × Option ecc25519_key) :=
  match ecc25519_size key with
  | .error e => .error e
  | .ok keySz =>
    if inLen ≠ keySz.toNat + 2 then .ok (ECC_BAD_ARG_E, key)
    else if 2 ≤ inp.length then
      if inp.getD 1 0 ≠ montgomery_x_le then .ok (ECC_BAD_ARG_E, key)
      else
        match key with
        | none => .error .nullDeref
        | some key =>
          if 2 + inLen ≤ inp.length ∧ inLen ≤ 32 then
            .ok (0, some { key with
              p := ⟨(List.range inLen).map (fun i => inp.getD (2 + i) 0)
                      ++ key.p.point.drop inLen⟩,
              dp := some ecc25519_sets0 })
          else .error .oob
    else .error .oob

/-- `ecc25519_export_private_raw` (ecc25519.c lines 224-242): after the NULL
checks, `keySz = ecc25519_size(key)`; when `*outLen < keySz` set
`*outLen = keySz` and return `BUFFER_E` without writing; otherwise set
`*outLen = keySz` and copy the stored private scalar. -/
def ecc25519_export_private_raw (key : Option ecc25519_key) (out : Option (List Nat))
    (outLen : Option Nat) : Except CErr (Int × Option (List Nat) × Option Nat) :=
  match key, out, outLen with
  | some key, some o, some ol =>
    match ecc25519_size (some key) with
    | .error e => .error e
    | .ok keySz =>
      let kz := keySz.toNat
      if ol < kz then .ok (BUFFER_E, some o, some kz)
      else if kz ≤ o.length then
        .ok (0, some ((List.range kz).map (fun i => key.k.point.getD i 0) ++ o.drop kz),
             some kz)
      else .error .oob
  | _, _, _ => .ok (ECC_BAD_ARG_E, out, outLen)

/-! Helper lemmas about the list plumbing. -/

theorem read32_eq_self (l : List Nat) (hl : l.length = 32) : read32 l = l := by
  apply List.ext_getElem (by simp [read32, hl])
  intro i h1 h2
  simp only [read32, List.getElem_map, List.getElem_range]
  exact l.getD_eq_getElem 0 h2

theorem rev32_eq_reverse (l : List Nat) (hl : l.length = 32) : rev32 l = l.reverse := by
  apply List.ext_getElem (by simp [rev32, hl])
  intro i h1 h2
  simp only [rev32, List.getElem_map, List.getElem_range]
  rw [List.getElem_reverse]
  have hi : i < 32 := by simpa [rev32] using h1
  have : l.length - 1 - i = 31 - i := by omega
  simp only [this]
  exact l.getD_eq_getElem 0 (by omega)

theorem clamp_length (l : List Nat) : (clamp l).length = l.length := by
  simp [clamp]

theorem curve25519_length (n p : List Nat) : (curve25519 n p).length = 32 := by
  simp [curve25519, fe_tobytes]

/-! Concrete key pairs used as evaluation inputs. -/

/-- A concrete initialized key pair with zeroed buffers. -/
def keyZero : ecc25519_key :=
  { type := 0, idx := 0, dp := some ecc25519_sets0, f := montgomery_x_le,
    p := ⟨List.replicate 32 0⟩, k := ⟨List.replicate 32 0⟩ }

/-- A concrete key pair whose stored public point has bit 7 of its first
(most significant) byte set. -/
def keyHighBit : ecc25519_key :=
  { keyZero with p := ⟨0x80 :: List.replicate 31 0⟩ }

/-- A concrete key pair with a distinctive stored public point. -/
def keySample : ecc25519_key :=
  { keyZero with p := ⟨(List.range 32).map (fun i => i + 1)⟩ }

/-- Claim C10: wipe is idempotent — wiping twice (also after a prior wipe, a
NULL key being left alone) succeeds and leaves both 32-byte buffers all-zero
and the domain-parameter reference cleared, identically to a single wipe. -/
theorem C10_wipe_idempotent (k : ecc25519_key) :
    ecc25519_free (ecc25519_free (some k)) = ecc25519_free (some k) ∧
    ecc25519_free (some k)
      = some { k with dp := none, p := ⟨List.replicate 32 0⟩,
                      k := ⟨List.replicate 32 0⟩ } ∧
    ecc25519_free none = none :=
  ⟨rfl, rfl, rfl⟩

/-- Claim C8: when the random source fails during `ecc25519_make_key`, the
source's error code is returned unchanged and the key structure is left
entirely unmodified. -/
theorem C8_rng_failure (k : ecc25519_key) (e : Int) :
    ecc25519_make_key (some (Except.error e)) 32 (some k) = (e, some k) := by
  simp [ecc25519_make_key]

/-- Claim C5: `ecc25519_shared_secret` with a peer public point whose stored
top byte has bit 7 set returns the invalid-argument code and leaves the
output buffer and the length out-parameter unchanged. -/
theorem C5_reject_high_bit (A B : ecc25519_key) (o : List Nat) (ol : Nat)
    (hTop : B.p.point.getD 0 0 > 0x7F) :
    ecc25519_shared_secret (some A) (some B) (some o) (some ol)
      = .ok (ECC_BAD_ARG_E, some o, some ol) := by
  simp only [ecc25519_shared_secret]
  rw [if_pos hTop]

theorem C5_reject_high_bit_witness :
    keyHighBit.p.point.getD 0 0 > 0x7F ∧
    ecc25519_shared_secret (some keyZero) (some keyHighBit)
        (some (List.replicate 32 5)) (some 32)
      = .ok (ECC_BAD_ARG_E, some (List.replicate 32 5), some 32) :=
  ⟨by decide,
   C5_reject_high_bit keyZero keyHighBit (List.replicate 32 5) 32 (by decide)⟩

/-- Claim C3 fails as stated: at this concrete input `ecc25519_shared_secret`
returns `BUFFER_E` but leaves the length out-parameter at 16 instead of
setting it to the required size 32. -/
theorem C3_counterexample :
    ecc25519_shared_secret (some keyZero) (some keyZero)
        (some (List.replicate 32 5)) (some 16)
      = .ok (BUFFER_E, some (List.replicate 32 5), some 16) ∧ (16 : Nat) ≠ 32 :=
  ⟨rfl, by decide⟩

/-- Claim C3 (amended): on a too-small output buffer,
`ecc25519_export_private_raw` sets the length out-parameter to the required
size 32 and writes nothing, while `ecc25519_shared_secret` returns the
buffer error and writes nothing to the output buffer but leaves the length
out-parameter unchanged. -/
theorem C3_buffer_too_small (key : ecc25519_key) (hdp : key.dp = some ecc25519_sets0)
    (o : List Nat) (ol : Nat) (hol : ol < 32)
    (A B : ecc25519_key) (hTop : B.p.point.getD 0 0 ≤ 0x7F)
    (o2 : List Nat) (ol2 : Nat) (hol2 : ol2 < 32) :
    ecc25519_export_private_raw (some key) (some o) (some ol)
      = .ok (BUFFER_E, some o, some 32) ∧
    ecc25519_shared_secret (some A) (some B) (some o2) (some ol2)
      = .ok (BUFFER_E, some o2, some ol2) := by
  constructor
  · simp [ecc25519_export_private_raw, ecc25519_size, hdp, ecc25519_sets0, hol]
  · have hT : ¬ B.p.point.getD 0 0 > 0x7F := by omega
    simp only [ecc25519_shared_secret]
    rw [if_neg hT, if_pos hol2]

theorem C3_buffer_too_small_witness :
    ecc25519_export_private_raw (some keyZero) (some []) (some 16)
      = .ok (BUFFER_E, some [], some 32) ∧
    ecc25519_shared_secret (some keyZero) (some keyZero) (some []) (some 16)
      = .ok (BUFFER_E, some [], some 16) :=
  C3_buffer_too_small keyZero rfl [] 16 (by decide) keyZero keyZero (by decide)
    [] 16 (by decide)

/-- Claim C4 fails as stated: on a wiped key pair, `ecc25519_size`
dereferences the cleared domain-parameter reference instead of returning 0. -/
theorem C4_counterexample :
    ecc25519_size (ecc25519_free (some keyZero)) = .error CErr.nullDeref ∧
    ¬ ecc25519_size (ecc25519_free (some keyZero)) = .ok 0 := by
  refine ⟨rfl, fun h => ?_⟩
  rw [show ecc25519_size (ecc25519_free (some keyZero)) = .error CErr.nullDeref
      from rfl] at h
  exact Except.noConfusion h

/-- Claim C4 (amended): `ecc25519_size` returns 0 for a NULL key and 32 when
the domain parameters are set, but on a key pair wiped by `ecc25519_free`
(domain-parameter reference cleared) it dereferences the NULL reference
instead of returning 0. -/
theorem C4_size_behavior (key : ecc25519_key) (hdp : key.dp = some ecc25519_sets0) :
    ecc25519_size none = .ok 0 ∧
    ecc25519_size (some key) = .ok 32 ∧
    ecc25519_size (ecc25519_free (some key)) = .error CErr.nullDeref := by
  refine ⟨rfl, ?_, rfl⟩
  simp [ecc25519_size, hdp, ecc25519_sets0]

theorem C4_size_behavior_witness :
    ecc25519_size none = .ok 0 ∧
    ecc25519_size (some keyZero) = .ok 32 ∧
    ecc25519_size (ecc25519_free (some keyZero)) = .error CErr.nullDeref :=
  C4_size_behavior keyZero rfl

/-- Claim C9: on every input `ecc25519_import_public` accepts (length 34
and correct format tag, into a key with domain parameters set), the copy
uses the full input length 34 rather than the 32-byte payload length, so in
the total embedding the out-of-range branch is taken: the copy would read 2
bytes past the 34-byte input (`2 + 34 > 34`) and write 2 bytes past the
32-byte public field (`34 > 32`). -/
theorem C9_import_oob (inp : List Nat) (key : ecc25519_key)
    (hdp : key.dp = some ecc25519_sets0) (hlen : inp.length = 34)
    (htag : inp.getD 1 0 = montgomery_x_le) :
    ecc25519_import_public inp 34 (some key) = .error CErr.oob ∧
    ¬ (2 + 34 ≤ inp.length) ∧ ¬ ((34 : Nat) ≤ 32) := by
  refine ⟨?_, by omega, by omega⟩
  simp only [ecc25519_import_public, ecc25519_size, hdp]
  rw [if_neg (fun h => h (by decide)), if_pos (by omega),
    if_neg (fun h => h htag), if_neg (by omega)]

theorem C9_import_oob_witness :
    (34 :: montgomery_x_le :: List.replicate 32 7).length = 34 ∧
    ecc25519_import_public (34 :: montgomery_x_le :: List.replicate 32 7) 34
        (some keyZero)
      = .error CErr.oob :=
  ⟨by decide,
   (C9_import_oob (34 :: montgomery_x_le :: List.replicate 32 7) keyZero rfl
      (by decide) (by decide)).1⟩

/-- Claim C2: evaluating export-then-import at a concrete key pair.
`ecc25519_export_public` produces the well-formed 34-byte wire form
`[34, tag, point]`, but `ecc25519_import_public` on that exact output,
instead of succeeding and reproducing the point, reaches the out-of-range
copy (the `XMEMCPY` of `inLen = 34` bytes of C9): the code contradicts the
intended round trip. -/
theorem C2_export_import_roundtrip_oob :
    ecc25519_export_public (some keySample) (some (List.replicate 34 0)) 0
      = .ok (0, some (34 :: montgomery_x_le :: keySample.p.point), 34) ∧
    ecc25519_import_public (34 :: montgomery_x_le :: keySample.p.point) 34
        ((ecc25519_init (some keyZero)).2)
      = .error CErr.oob :=
  ⟨rfl, rfl⟩

theorem clamp_getD_zero (n : List Nat) (hl : n.length = 32) :
    (clamp n).getD 0 0 = n.getD 0 0 &&& 248 := by
  have h1 : 0 < ((n.set 0 (n.getD 0 0 &&& 248)).set 31
      ((n.getD 31 0 &&& 127) ||| 64)).length := by simp [hl]
  rw [show clamp n
        = (n.set 0 (n.getD 0 0 &&& 248)).set 31 ((n.getD 31 0 &&& 127) ||| 64)
      from rfl,
    List.getD_eq_getElem _ _ h1, List.getElem_set_ne (by omega),
    List.getElem_set_self]

theorem clamp_getD_31 (n : List Nat) (hl : n.length = 32) :
    (clamp n).getD 31 0 = (n.getD 31 0 &&& 127) ||| 64 := by
  have h1 : 31 < ((n.set 0 (n.getD 0 0 &&& 248)).set 31
      ((n.getD 31 0 &&& 127) ||| 64)).length := by simp [hl]
  rw [show clamp n
        = (n.set 0 (n.getD 0 0 &&& 248)).set 31 ((n.getD 31 0 &&& 127) ||| 64)
      from rfl,
    List.getD_eq_getElem _ _ h1, List.getElem_set_self]

theorem clamp_getD_mid (n : List Nat) (hl : n.length = 32) (i : Nat)
    (hi1 : 1 ≤ i) (hi2 : i ≤ 30) : (clamp n).getD i 0 = n.getD i 0 := by
  have h1 : i < ((n.set 0 (n.getD 0 0 &&& 248)).set 31
      ((n.getD 31 0 &&& 127) ||| 64)).length := by simp [hl]; omega
  rw [show clamp n
        = (n.set 0 (n.getD 0 0 &&& 248)).set 31 ((n.getD 31 0 &&& 127) ||| 64)
      from rfl,
    List.getD_eq_getElem _ _ h1, List.getElem_set_ne (by omega),
    List.getElem_set_ne (by omega)]
  exact (n.getD_eq_getElem 0 (by omega)).symm

set_option maxRecDepth 8000 in
/-- Claim C6: for any 32-byte scalar, the clamp shared by `curve25519` and
`ecc25519_make_key` forces `byte[0] & 7 = 0`, `byte[31] & 0x80 = 0` and
`byte[31] & 0x40 = 0x40`, and leaves every other bit unchanged: bytes 1-30
verbatim, bits 3-7 of byte 0, and all bits of byte 31 except bits 6 and 7. -/
theorem C6_clamp_bits (n : List Nat) (hl : n.length = 32)
    (hb : ∀ i, i < 32 → n.getD i 0 < 256) :
    ((clamp n).getD 0 0 &&& 7 = 0) ∧
    ((clamp n).getD 31 0 &&& 128 = 0) ∧
    ((clamp n).getD 31 0 &&& 64 = 64) ∧
    (∀ i, 1 ≤ i → i ≤ 30 → (clamp n).getD i 0 = n.getD i 0) ∧
    (∀ j, 3 ≤ j → ((clamp n).getD 0 0).testBit j = (n.getD 0 0).testBit j) ∧
    (∀ j, j ≠ 6 → j ≠ 7 →
      ((clamp n).getD 31 0).testBit j = (n.getD 31 0).testBit j) := by
  have h0 := hb 0 (by omega)
  have h31 := hb 31 (by omega)
  have e0 := clamp_getD_zero n hl
  have e31 := clamp_getD_31 n hl
  have d1 : ∀ y, y < 256 → y &&& 248 &&& 7 = 0 := by decide
  have d2 : ∀ y, y < 256 → ((y &&& 127) ||| 64) &&& 128 = 0 := by decide
  have d3 : ∀ y, y < 256 → ((y &&& 127) ||| 64) &&& 64 = 64 := by decide
  have d4 : ∀ y, y < 256 → ∀ j, j < 8 → 3 ≤ j →
      ((y &&& 248).testBit j = y.testBit j) := by decide
  have d5 : ∀ y, y < 256 → ∀ j, j < 8 → j ≠ 6 → j ≠ 7 →
      (((y &&& 127) ||| 64).testBit j = y.testBit j) := by decide
  refine ⟨?_, ?_, ?_, fun i hi1 hi2 => clamp_getD_mid n hl i hi1 hi2, ?_, ?_⟩
  · rw [e0]; exact d1 _ h0
  · rw [e31]; exact d2 _ h31
  · rw [e31]; exact d3 _ h31
  · intro j hj
    rw [e0]
    rcases Nat.lt_or_ge j 8 with hlt | hge
    · exact d4 _ h0 j hlt hj
    · have hp : (2 : Nat) ^ 8 ≤ 2 ^ j := Nat.pow_le_pow_right (by omega) hge
      have hx : n.getD 0 0 &&& 248 < 2 ^ j :=
        lt_of_le_of_lt Nat.and_le_right (by omega)
      have hy : n.getD 0 0 < 2 ^ j := by omega
      rw [Nat.testBit_lt_two_pow hx, Nat.testBit_lt_two_pow hy]
  · intro j hj6 hj7
    rw [e31]
    rcases Nat.lt_or_ge j 8 with hlt | hge
    · exact d5 _ h31 j hlt hj6 hj7
    · have hp : (2 : Nat) ^ 8 ≤ 2 ^ j := Nat.pow_le_pow_right (by omega) hge
      have h7 : (2 : Nat) ^ 7 ≤ 2 ^ j := Nat.pow_le_pow_right (by omega) (by omega)
      have hor : ((n.getD 31 0 &&& 127) ||| 64) < 2 ^ 7 :=
        Nat.or_lt_two_pow (lt_of_le_of_lt Nat.and_le_right (by omega)) (by omega)
      have hx : ((n.getD 31 0 &&& 127) ||| 64) < 2 ^ j := by omega
      have hy : n.getD 31 0 < 2 ^ j := by omega
      rw [Nat.testBit_lt_two_pow hx, Nat.testBit_lt_two_pow hy]

theorem C6_clamp_bits_witness :
    basepoint.length = 32 ∧ (∀ i, i < 32 → basepoint.getD i 0 < 256) ∧
    (((clamp basepoint).getD 0 0 &&& 7 = 0) ∧
     ((clamp basepoint).getD 31 0 &&& 128 = 0) ∧
     ((clamp basepoint).getD 31 0 &&& 64 = 64) ∧
     (∀ i, 1 ≤ i → i ≤ 30 → (clamp basepoint).getD i 0 = basepoint.getD i 0) ∧
     (∀ j, 3 ≤ j →
       ((clamp basepoint).getD 0 0).testBit j = (basepoint.getD 0 0).testBit j) ∧
     (∀ j, j ≠ 6 → j ≠ 7 →
       ((clamp basepoint).getD 31 0).testBit j = (basepoint.getD 31 0).testBit j)) :=
  ⟨by decide, by decide, C6_clamp_bits basepoint (by decide) (by decide)⟩

/-- Claim C7: `ecc25519_make_key` stores the clamped scalar and the computed
public point byte-reversed (MSB-first) relative to the ladder's little-endian
order, while `ecc25519_shared_secret` reverses the stored scalar and peer
point before the ladder and writes the ladder's 32-byte result to the output
buffer in native little-endian order, without the reversal. -/
theorem C7_byte_order (key : ecc25519_key) (n : List Nat) (hn : n.length = 32)
    (A B : ecc25519_key) (hA : A.k.point.length = 32) (hB : B.p.point.length = 32)
    (hTop : B.p.point.getD 0 0 ≤ 0x7F)
    (o : List Nat) (ho : 32 ≤ o.length) (ol : Nat) (hol : 32 ≤ ol) :
    ecc25519_make_key (some (Except.ok n)) 32 (some key)
      = (0, some { key with p := ⟨(curve25519 (clamp n) basepoint).reverse⟩,
                            k := ⟨(clamp n).reverse⟩ }) ∧
    ecc25519_shared_secret (some A) (some B) (some o) (some ol)
      = .ok (0, some (curve25519 A.k.point.reverse B.p.point.reverse ++ o.drop 32),
             some 32) := by
  constructor
  · have hr := read32_eq_self n hn
    have hc : (clamp n).length = 32 := by rw [clamp_length, hn]
    have h1 := rev32_eq_reverse (clamp n) hc
    have h2 := rev32_eq_reverse (curve25519 (clamp n) basepoint)
      (curve25519_length _ _)
    simp only [ecc25519_make_key]
    rw [if_neg (fun h => h rfl), hr, h1, h2]
  · have hT : ¬ B.p.point.getD 0 0 > 0x7F := by omega
    have hO : ¬ ol < 32 := by omega
    have hL : ¬ o.length < 32 := by omega
    simp only [ecc25519_shared_secret]
    rw [if_neg hT, if_neg hO, if_neg hL, rev32_eq_reverse _ hA,
      rev32_eq_reverse _ hB]

theorem C7_byte_order_witness :
    basepoint.length = 32 ∧
    (ecc25519_make_key (some (Except.ok basepoint)) 32 (some keyZero)
      = (0, some { keyZero with
                   p := ⟨(curve25519 (clamp basepoint) basepoint).reverse⟩,
                   k := ⟨(clamp basepoint).reverse⟩ }) ∧
    ecc25519_shared_secret (some keyZero) (some keyZero)
        (some (List.replicate 32 9)) (some 32)
      = .ok (0, some (curve25519 keyZero.k.point.reverse keyZero.p.point.reverse
                        ++ (List.replicate 32 9).drop 32), some 32)) :=
  ⟨by decide,
   C7_byte_order keyZero basepoint (by decide) keyZero keyZero (by decide)
     (by decide) (by decide) (List.replicate 32 9) (by decide) 32 (by decide)⟩
